import Mathlib

/-!
Verification development for the easters-crypto core: a shallow embedding of
the TokenManager, SmartContractService and DomainResolver modules, with the
external blockchain collaborators (ethers provider, ENS registry, resolvers,
HTTP fetch) modelled as environment records of abstract outcome functions.
JavaScript objects keyed by strings are modelled as association lists in
insertion order; a thrown JavaScript exception is modelled as Except.error;
network round trips are recorded in an explicit call trace so that claims
about which calls happen, and in which order, can be stated.
-/

/-- Lookup in a string-keyed JavaScript object modelled as an association
list: first binding with the exact key, compared by string equality. -/
def lookupKey {α : Type} : List (String × α) → String → Option α
  | [], _ => none
  | (k, v) :: rest, key => if k = key then some v else lookupKey rest key

/-- Property assignment on a string-keyed JavaScript object: overwrite the
binding in place when the exact key is present, otherwise append. -/
def setKey {α : Type} : List (String × α) → String → α → List (String × α)
  | [], key, v => [(key, v)]
  | (k, w) :: rest, key, v =>
      if k = key then (key, v) :: rest else (k, w) :: setKey rest key v

/-- Model of the JavaScript startsWith test, computed on the character
lists so that concrete instances reduce in the kernel. -/
def beginsWithStr (s p : String) : Bool := p.data.isPrefixOf s.data

/-- Model of the JavaScript endsWith test, computed on the character
lists so that concrete instances reduce in the kernel. -/
def endsWithStr (s p : String) : Bool := p.data.reverse.isPrefixOf s.data.reverse

/-- Model of the JavaScript case-insensitive address comparison
a.toLowerCase() === b.toLowerCase(), on the character lists. -/
def lowerCaseEq (a b : String) : Bool :=
  a.data.map Char.toLower = b.data.map Char.toLower

/-- The ethers zero-address constant (ethers.constants.AddressZero). -/
def addressZero : String := "0x0000000000000000000000000000000000000000"

/-- Hex digit test used by the reference address validator. -/
def isHexDigitChar (c : Char) : Bool :=
  c.isDigit || (decide ('a' ≤ c) && decide (c ≤ 'f')) ||
    (decide ('A' ≤ c) && decide (c ≤ 'F'))

/-- Reference instantiation of the external address validator
(ethers.utils.isAddress) used by concrete test environments: the
0x-prefixed 40-hex-digit shape. The managers themselves are parametric in
the validator, which lives in the environment record. -/
def hexAddressOk (s : String) : Bool :=
  beginsWithStr s "0x" && (s.data.length = 42 : Bool) && (s.data.drop 2).all isHexDigitChar

/-- Message of the error thrown by BlockchainProvider.getWallet when no
private key was configured. -/
def walletErrorMsg : String :=
  "Wallet not configured. Provide a private key in configuration."

/-- One event inside a transaction receipt; only the fields the code reads
(the event name and the tokenId argument) are modelled. -/
structure TxEvent where
  name : String
  tokenId : Option Nat
deriving DecidableEq

/-- A mined-transaction receipt as read by the code: hash plus events. -/
structure Receipt where
  transactionHash : String
  events : List TxEvent
deriving DecidableEq

/-- The metadata envelope mintPropertyToken builds and serializes into the
mint call: property data, token URI and the current timestamp. The JSON
serialization itself is an external library call, so the envelope is kept
structured. -/
structure MintEnvelope where
  propertyData : String
  tokenURI : String
  timestamp : Nat
deriving DecidableEq

/-- Environment of external collaborators shared by TokenManager and
SmartContractService: the ethers address validator, the provider wallet
state, and the outcome of each network round trip (submit plus wait), as a
function of the arguments the code passes. An Except.error outcome models a
thrown or rejected call (network failure or contract revert). -/
structure ChainEnv where
  isAddress : String → Bool
  hasWallet : Bool
  walletAddress : String
  now : Nat
  mint : String → String → String → MintEnvelope → Except String Receipt
  fracMint : String → String → String → Nat → Except String Receipt
  tokenURI : String → String → Except String String
  ownerOf : String → String → Except String String
  fetchJson : String → Except String String
  transferFrom : String → String → String → String → Except String Receipt
  deployTokenization : String → String → Except String (String × String)
  deployFractional : String → Except String (String × String)
  listProperty : String → String → Nat → Except String Receipt
  getPropertyListing : String → String → Except String Nat
  purchaseProperty : String → String → Nat → Nat → Except String Receipt

/-- One network round trip issued by the token or marketplace code. -/
inductive NetCall where
  | mintTx (contractAddr recipient uri : String) (payload : MintEnvelope)
  | fracMintTx (contractAddr toAddr tokenId : String) (fractions : Nat)
  | tokenUriRead (contractAddr tokenId : String)
  | ownerOfRead (contractAddr tokenId : String)
  | httpFetch (url : String)
  | transferTx (contractAddr fromAddr toAddr tokenId : String)
  | deployTx (kind : String)
  | listTx (contractAddr tokenId : String) (price : Nat)
  | listingRead (contractAddr tokenId : String)
  | purchaseTx (contractAddr tokenId : String) (shares value : Nat)
deriving DecidableEq

/-- A cached contract handle: the address as passed by the caller and the
ABI actually bound (the resolved token type). -/
structure ContractHandle where
  address : String
  abi : String
deriving DecidableEq

/-- TokenManager.loadContract: validates the address with the external
validator and throws (Except.error) on failure; otherwise binds the ABI
selected by tokenType to a wallet-backed handle and stores it in the
contracts object under the exact address string. A missing wallet makes the
inner try rethrow with a prefixed message. Returns the thrown-or-returned
value together with the updated contracts object. -/
def TokenManager.loadContract (env : ChainEnv)
    (contracts : List (String × ContractHandle))
    (contractAddress tokenType : String) :
    Except String ContractHandle × List (String × ContractHandle) :=
  if env.isAddress contractAddress = false then
    (Except.error "Invalid contract address", contracts)
  else
    let abi := if tokenType = "ERC1155" then "ERC1155" else "ERC721"
    if env.hasWallet then
      let h : ContractHandle := ⟨contractAddress, abi⟩
      (Except.ok h, setKey contracts contractAddress h)
    else
      (Except.error ("Failed to load contract: " ++ walletErrorMsg), contracts)

/-- Result object of TokenManager.mintPropertyToken. -/
structure MintResult where
  success : Bool
  tokenId : Option String := none
  transactionHash : Option String := none
  metadata : Option MintEnvelope := none
  error : Option String := none
deriving DecidableEq

/-- Shared prologue of the TokenManager operations: take the cached handle
for the address if present, otherwise load it (which may throw and which
mutates the contracts object on success). -/
def TokenManager.getOrLoad (env : ChainEnv)
    (contracts : List (String × ContractHandle))
    (contractAddress tokenType : String) :
    Except String ContractHandle × List (String × ContractHandle) :=
  match lookupKey contracts contractAddress with
  | some h => (Except.ok h, contracts)
  | none => TokenManager.loadContract env contracts contractAddress tokenType

/-- TokenManager.mintPropertyToken: load or reuse the handle, build the
metadata envelope, submit the mint transaction and wait, then read the
token id from the Transfer event. Every thrown error is caught and returned
as a success-false result carrying the message. -/
def TokenManager.mintPropertyToken (env : ChainEnv)
    (contracts : List (String × ContractHandle))
    (contractAddress tokenURI recipient propertyData : String) :
    MintResult × List (String × ContractHandle) × List NetCall :=
  match TokenManager.getOrLoad env contracts contractAddress "ERC721" with
  | (Except.error e, cs) => ({ success := false, error := some e }, cs, [])
  | (Except.ok _, cs) =>
      let envlp : MintEnvelope := ⟨propertyData, tokenURI, env.now⟩
      match env.mint contractAddress recipient tokenURI envlp with
      | Except.error e =>
          ({ success := false, error := some e }, cs,
            [NetCall.mintTx contractAddress recipient tokenURI envlp])
      | Except.ok receipt =>
          let ev := receipt.events.find? (fun e => e.name = "Transfer")
          ({ success := true,
             tokenId := (ev.bind (fun e => e.tokenId)).map toString,
             transactionHash := some receipt.transactionHash,
             metadata := some envlp }, cs,
            [NetCall.mintTx contractAddress recipient tokenURI envlp])

/-- Result object of TokenManager.createFractionalTokens. -/
structure FractionResult where
  success : Bool
  tokenId : Option String := none
  fractions : Option Nat := none
  transactionHash : Option String := none
  error : Option String := none
deriving DecidableEq

/-- TokenManager.createFractionalTokens: load or reuse the handle with the
ERC1155 ABI, then mint the given number of fractions to the wallet address
(reading the wallet again, which throws when unconfigured). Errors are
caught into a success-false result. -/
def TokenManager.createFractionalTokens (env : ChainEnv)
    (contracts : List (String × ContractHandle))
    (contractAddress tokenId : String) (fractions : Nat) :
    FractionResult × List (String × ContractHandle) × List NetCall :=
  match TokenManager.getOrLoad env contracts contractAddress "ERC1155" with
  | (Except.error e, cs) => ({ success := false, error := some e }, cs, [])
  | (Except.ok _, cs) =>
      if env.hasWallet = false then
        ({ success := false, error := some walletErrorMsg }, cs, [])
      else
        match env.fracMint contractAddress env.walletAddress tokenId fractions with
        | Except.error e =>
            ({ success := false, error := some e }, cs,
              [NetCall.fracMintTx contractAddress env.walletAddress tokenId fractions])
        | Except.ok receipt =>
            ({ success := true, tokenId := some tokenId,
               fractions := some fractions,
               transactionHash := some receipt.transactionHash }, cs,
              [NetCall.fracMintTx contractAddress env.walletAddress tokenId fractions])

/-- Result object of TokenManager.getTokenMetadata. The success field is an
Option because the source returns a success-true shaped object WITHOUT a
success property on its happy path; only the catch branch sets success. -/
structure MetadataResult where
  success : Option Bool := none
  tokenId : Option String := none
  tokenURI : Option String := none
  metadata : Option String := none
  owner : Option String := none
  error : Option String := none
deriving DecidableEq

/-- TokenManager.getTokenMetadata: load or reuse the handle, read the token
URI, fetch and decode HTTP metadata (ipfs and other schemes are left
undecoded), then read the owner. Any thrown error is caught into a
success-false result; the happy-path object carries no success flag. -/
def TokenManager.getTokenMetadata (env : ChainEnv)
    (contracts : List (String × ContractHandle))
    (contractAddress tokenId : String) :
    MetadataResult × List (String × ContractHandle) × List NetCall :=
  match TokenManager.getOrLoad env contracts contractAddress "ERC721" with
  | (Except.error e, cs) => ({ success := some false, error := some e }, cs, [])
  | (Except.ok _, cs) =>
      match env.tokenURI contractAddress tokenId with
      | Except.error e =>
          ({ success := some false, error := some e }, cs,
            [NetCall.tokenUriRead contractAddress tokenId])
      | Except.ok uri =>
          if beginsWithStr uri "ipfs://" then
            match env.ownerOf contractAddress tokenId with
            | Except.error e =>
                ({ success := some false, error := some e }, cs,
                  [NetCall.tokenUriRead contractAddress tokenId,
                   NetCall.ownerOfRead contractAddress tokenId])
            | Except.ok o =>
                ({ tokenId := some tokenId, tokenURI := some uri,
                   metadata := none, owner := some o }, cs,
                  [NetCall.tokenUriRead contractAddress tokenId,
                   NetCall.ownerOfRead contractAddress tokenId])
          else if beginsWithStr uri "http" then
            match env.fetchJson uri with
            | Except.error e =>
                ({ success := some false, error := some e }, cs,
                  [NetCall.tokenUriRead contractAddress tokenId,
                   NetCall.httpFetch uri])
            | Except.ok j =>
                match env.ownerOf contractAddress tokenId with
                | Except.error e =>
                    ({ success := some false, error := some e }, cs,
                      [NetCall.tokenUriRead contractAddress tokenId,
                       NetCall.httpFetch uri,
                       NetCall.ownerOfRead contractAddress tokenId])
                | Except.ok o =>
                    ({ tokenId := some tokenId, tokenURI := some uri,
                       metadata := some j, owner := some o }, cs,
                      [NetCall.tokenUriRead contractAddress tokenId,
                       NetCall.httpFetch uri,
                       NetCall.ownerOfRead contractAddress tokenId])
          else
            match env.ownerOf contractAddress tokenId with
            | Except.error e =>
                ({ success := some false, error := some e }, cs,
                  [NetCall.tokenUriRead contractAddress tokenId,
                   NetCall.ownerOfRead contractAddress tokenId])
            | Except.ok o =>
                ({ tokenId := some tokenId, tokenURI := some uri,
                   metadata := none, owner := some o }, cs,
                  [NetCall.tokenUriRead contractAddress tokenId,
                   NetCall.ownerOfRead contractAddress tokenId])

/-- Result object of TokenManager.transferToken. -/
structure TransferResult where
  success : Bool
  tokenId : Option String := none
  fromAddr : Option String := none
  toAddr : Option String := none
  transactionHash : Option String := none
  error : Option String := none
deriving DecidableEq

/-- TokenManager.transferToken: load or reuse the handle, submit
transferFrom and wait. Errors are caught into a success-false result. -/
def TokenManager.transferToken (env : ChainEnv)
    (contracts : List (String × ContractHandle))
    (contractAddress tokenId fromAddr toAddr : String) :
    TransferResult × List (String × ContractHandle) × List NetCall :=
  match TokenManager.getOrLoad env contracts contractAddress "ERC721" with
  | (Except.error e, cs) => ({ success := false, error := some e }, cs, [])
  | (Except.ok _, cs) =>
      match env.transferFrom contractAddress fromAddr toAddr tokenId with
      | Except.error e =>
          ({ success := false, error := some e }, cs,
            [NetCall.transferTx contractAddress fromAddr toAddr tokenId])
      | Except.ok receipt =>
          ({ success := true, tokenId := some tokenId,
             fromAddr := some fromAddr, toAddr := some toAddr,
             transactionHash := some receipt.transactionHash }, cs,
            [NetCall.transferTx contractAddress fromAddr toAddr tokenId])

/-- One entry of the SmartContractService deployed-contract registry: the
address as stored, a type tag, and the optional linked property token. -/
structure DeployedRecord where
  address : String
  ctype : String
  propertyTokenAddress : Option String := none
deriving DecidableEq

/-- SmartContractService.loadContract: validates the address with the
external validator and throws (Except.error) on failure; otherwise binds
the given ABI to a wallet-backed contract (a missing wallet makes the inner
try rethrow with a prefixed message) and records it in the registry under
the exact address string with type custom. -/
def SmartContractService.loadContract (env : ChainEnv)
    (registry : List (String × DeployedRecord)) (address abiTag : String) :
    Except String String × List (String × DeployedRecord) :=
  if env.isAddress address = false then
    (Except.error "Invalid contract address", registry)
  else
    if env.hasWallet then
      (Except.ok address,
        setKey registry address ⟨address, "custom", none⟩)
    else
      (Except.error ("Failed to load contract: " ++ walletErrorMsg), registry)

/-- Result object of the two deployment operations. -/
structure DeployResult where
  success : Bool
  contractAddress : Option String := none
  name : Option String := none
  symbol : Option String := none
  propertyTokenAddress : Option String := none
  transactionHash : Option String := none
  error : Option String := none
deriving DecidableEq

/-- SmartContractService.deployTokenizationContract: build a wallet-backed
factory (throwing when the wallet is unconfigured), deploy, wait until
live, then record the contract under its address with type
PropertyTokenization. Errors are caught into a success-false result. -/
def SmartContractService.deployTokenizationContract (env : ChainEnv)
    (registry : List (String × DeployedRecord)) (name symbol : String) :
    DeployResult × List (String × DeployedRecord) × List NetCall :=
  if env.hasWallet = false then
    ({ success := false, error := some walletErrorMsg }, registry, [])
  else
    match env.deployTokenization name symbol with
    | Except.error e =>
        ({ success := false, error := some e }, registry,
          [NetCall.deployTx "PropertyTokenization"])
    | Except.ok (caddr, txh) =>
        ({ success := true, contractAddress := some caddr,
           name := some name, symbol := some symbol,
           transactionHash := some txh },
          setKey registry caddr ⟨caddr, "PropertyTokenization", none⟩,
          [NetCall.deployTx "PropertyTokenization"])

/-- SmartContractService.deployFractionalContract: the address check is
inside the try, so an invalid linked address is caught into a structured
success-false result; then deploy as for tokenization, recording type
FractionalOwnership with the linked property token address. -/
def SmartContractService.deployFractionalContract (env : ChainEnv)
    (registry : List (String × DeployedRecord)) (propertyTokenAddress : String) :
    DeployResult × List (String × DeployedRecord) × List NetCall :=
  if env.isAddress propertyTokenAddress = false then
    ({ success := false, error := some "Invalid property token address" },
      registry, [])
  else if env.hasWallet = false then
    ({ success := false, error := some walletErrorMsg }, registry, [])
  else
    match env.deployFractional propertyTokenAddress with
    | Except.error e =>
        ({ success := false, error := some e }, registry,
          [NetCall.deployTx "FractionalOwnership"])
    | Except.ok (caddr, txh) =>
        ({ success := true, contractAddress := some caddr,
           propertyTokenAddress := some propertyTokenAddress,
           transactionHash := some txh },
          setKey registry caddr
            ⟨caddr, "FractionalOwnership", some propertyTokenAddress⟩,
          [NetCall.deployTx "FractionalOwnership"])

/-- Shared prologue of the marketplace operations: reuse the registry entry
for the address if present, otherwise load the contract with the
marketplace ABI (which may throw and which records a custom entry). -/
def SmartContractService.getOrLoad (env : ChainEnv)
    (registry : List (String × DeployedRecord)) (address : String) :
    Except String String × List (String × DeployedRecord) :=
  match lookupKey registry address with
  | some _ => (Except.ok address, registry)
  | none => SmartContractService.loadContract env registry address "PropertyMarketplace"

/-- Result object of SmartContractService.listPropertyForSale. -/
structure ListResult where
  success : Bool
  tokenId : Option String := none
  price : Option Nat := none
  transactionHash : Option String := none
  error : Option String := none
deriving DecidableEq

/-- SmartContractService.listPropertyForSale: reuse or load the marketplace
contract, submit listProperty with the price and wait. Errors are caught
into a success-false result. -/
def SmartContractService.listPropertyForSale (env : ChainEnv)
    (registry : List (String × DeployedRecord))
    (marketplaceAddress tokenId : String) (price : Nat) :
    ListResult × List (String × DeployedRecord) × List NetCall :=
  match SmartContractService.getOrLoad env registry marketplaceAddress with
  | (Except.error e, reg) => ({ success := false, error := some e }, reg, [])
  | (Except.ok _, reg) =>
      match env.listProperty marketplaceAddress tokenId price with
      | Except.error e =>
          ({ success := false, error := some e }, reg,
            [NetCall.listTx marketplaceAddress tokenId price])
      | Except.ok receipt =>
          ({ success := true, tokenId := some tokenId, price := some price,
             transactionHash := some receipt.transactionHash }, reg,
            [NetCall.listTx marketplaceAddress tokenId price])

/-- Result object of SmartContractService.buyProperty. The price is the
decimal string of the submitted value, as the source stringifies the
BigNumber product. -/
structure PurchaseResult where
  success : Bool
  tokenId : Option String := none
  shares : Option Nat := none
  price : Option String := none
  transactionHash : Option String := none
  error : Option String := none
deriving DecidableEq

/-- SmartContractService.buyProperty: reuse or load the marketplace
contract, read the current listing, multiply its price by the requested
share count, then submit purchaseProperty carrying that product as payment
value and wait. Errors are caught into a success-false result. -/
def SmartContractService.buyProperty (env : ChainEnv)
    (registry : List (String × DeployedRecord))
    (marketplaceAddress tokenId : String) (shares : Nat) :
    PurchaseResult × List (String × DeployedRecord) × List NetCall :=
  match SmartContractService.getOrLoad env registry marketplaceAddress with
  | (Except.error e, reg) => ({ success := false, error := some e }, reg, [])
  | (Except.ok _, reg) =>
      match env.getPropertyListing marketplaceAddress tokenId with
      | Except.error e =>
          ({ success := false, error := some e }, reg,
            [NetCall.listingRead marketplaceAddress tokenId])
      | Except.ok listedPrice =>
          let value := listedPrice * shares
          match env.purchaseProperty marketplaceAddress tokenId shares value with
          | Except.error e =>
              ({ success := false, error := some e }, reg,
                [NetCall.listingRead marketplaceAddress tokenId,
                 NetCall.purchaseTx marketplaceAddress tokenId shares value])
          | Except.ok receipt =>
              ({ success := true, tokenId := some tokenId,
                 shares := some shares, price := some (toString value),
                 transactionHash := some receipt.transactionHash }, reg,
                [NetCall.listingRead marketplaceAddress tokenId,
                 NetCall.purchaseTx marketplaceAddress tokenId shares value])

/-- Environment of the ENS collaborators: the registry resolver lookup and
the three resolver record queries, each as a function of the node (and key)
with Except.error modelling a thrown call, plus the external content-hash
decoder. The addr record can succeed with none, modelling the null the
resolver returns when no address record is set. -/
structure ENSEnv where
  registryResolver : String → Except String String
  addrRecord : String → String → Except String (Option String)
  contenthashRecord : String → String → Except String String
  textRecord : String → String → String → Except String String
  decodeContentHash : String → Except String String

/-- One call issued against the registry or a resolver contract. -/
inductive ResolverCall where
  | registry (node : String)
  | addr (resolverAddress node : String)
  | contenthash (resolverAddress node : String)
  | text (resolverAddress node key : String)
deriving DecidableEq

/-- The ENS namehash, modelled as an opaque injection: the code only ever
uses the hash as a lookup key, so the normalized domain itself serves as
the node. -/
def namehash (domain : String) : String := domain

/-- The fixed list of text-record keys resolveENSDomain queries. -/
def textRecordKeys : List String :=
  ["description", "url", "email", "avatar",
   "property.location", "property.beds", "property.baths",
   "property.sqft", "property.images", "property.video"]

/-- Resolution result object. Fields that a given return site leaves out of
the source object are none; on the happy path address is the value the
resolver returned (none modelling null) and content is split into its raw
and decoded parts, both none when content was absent or failed to decode. -/
structure Resolution where
  success : Bool
  domain : Option String := none
  address : Option String := none
  contentRaw : Option String := none
  contentDecoded : Option String := none
  metadata : List (String × String) := []
  resolverAddress : Option String := none
  error : Option String := none
deriving DecidableEq

/-- The text-record loop of resolveENSDomain: query each key independently
against the resolver, keep non-empty successful values in order, and skip
any key whose query throws or returns the empty string. Also returns the
calls issued, one per key. -/
def collectTextRecords (env : ENSEnv) (resolverAddress node : String) :
    List String → List (String × String) × List ResolverCall
  | [] => ([], [])
  | k :: rest =>
      let tail := collectTextRecords env resolverAddress node rest
      match env.textRecord resolverAddress node k with
      | Except.error _ =>
          (tail.1, ResolverCall.text resolverAddress node k :: tail.2)
      | Except.ok v =>
          (if v = "" then tail.1 else (k, v) :: tail.1,
            ResolverCall.text resolverAddress node k :: tail.2)

/-- DomainResolver.resolveENSDomain: normalize the domain by appending .eth
when missing, look up the resolver in the registry, stop with a
no-resolver failure when it is the zero address, then read the address
record (a thrown read fails the whole resolution), the content hash
(failures and decode errors are swallowed) and the fixed text records
(each key independent). Returns the result together with the trace of
registry and resolver calls. -/
def DomainResolver.resolveENSDomain (env : ENSEnv) (rawDomain : String) :
    Resolution × List ResolverCall :=
  let domain := if endsWithStr rawDomain ".eth" then rawDomain else rawDomain ++ ".eth"
  let node := namehash domain
  match env.registryResolver node with
  | Except.error e =>
      ({ success := false, domain := some domain, error := some e },
        [ResolverCall.registry node])
  | Except.ok resolverAddress =>
      if resolverAddress = addressZero then
        ({ success := false,
           error := some ("No resolver found for domain " ++ domain) },
          [ResolverCall.registry node])
      else
        match env.addrRecord resolverAddress node with
        | Except.error e =>
            ({ success := false, domain := some domain, error := some e },
              [ResolverCall.registry node,
               ResolverCall.addr resolverAddress node])
        | Except.ok address =>
            let content : Option String × Option String :=
              match env.contenthashRecord resolverAddress node with
              | Except.error _ => (none, none)
              | Except.ok h =>
                  if h ≠ "" ∧ h ≠ "0x" then
                    match env.decodeContentHash h with
                    | Except.error _ => (none, none)
                    | Except.ok d => (some h, some d)
                  else (none, none)
            let textPart := collectTextRecords env resolverAddress node textRecordKeys
            ({ success := true, domain := some domain, address := address,
               contentRaw := content.1, contentDecoded := content.2,
               metadata := textPart.1,
               resolverAddress := some resolverAddress },
              ResolverCall.registry node ::
                ResolverCall.addr resolverAddress node ::
                ResolverCall.contenthash resolverAddress node :: textPart.2)

/-- DomainResolver.resolveUnstoppableDomain: the alternate-registry path is
stubbed and always returns a structured failure. -/
def DomainResolver.resolveUnstoppableDomain (domain : String) : Resolution :=
  { success := false, domain := some domain,
    error := some "Unstoppable Domains resolution requires additional implementation" }

/-- The fixed alternate top-level domains checked by resolveDomain. -/
def altTlds : List String := ["crypto", "nft", "blockchain", "bitcoin", "x", "dao"]

/-- DomainResolver.resolveDomain: suffix dispatch between the ENS path, the
stubbed alternate-registry path, and an unsupported-domain failure. -/
def DomainResolver.resolveDomain (env : ENSEnv) (domain : String) :
    Resolution × List ResolverCall :=
  if endsWithStr domain ".eth" then
    DomainResolver.resolveENSDomain env domain
  else if altTlds.any (fun tld => endsWithStr domain ("." ++ tld)) then
    (DomainResolver.resolveUnstoppableDomain domain, [])
  else
    ({ success := false, domain := some domain,
       error := some "Unsupported domain type. Supported: .eth, .crypto, .nft, etc." }, [])

/-- Result object of DomainResolver.verifyDomainOwnership. -/
structure VerificationResult where
  success : Bool
  verified : Bool
  domain : Option String := none
  ownerAddress : Option String := none
  error : Option String := none
deriving DecidableEq

/-- Message of the TypeError raised when the lower-casing of a null
resolved address is attempted; the JavaScript engine wording is abbreviated
to an engine-neutral form, as only its presence matters. -/
def nullToLowerCaseMessage : String :=
  "TypeError: cannot read toLowerCase of null"

/-- DomainResolver.verifyDomainOwnership: resolve the domain, propagate a
resolution failure with its error, otherwise compare the resolved address
with the claimed one case-insensitively; a null resolved address makes the
comparison raise, and the catch converts that into a failure. -/
def DomainResolver.verifyDomainOwnership (env : ENSEnv) (domain address : String) :
    VerificationResult × List ResolverCall :=
  match DomainResolver.resolveDomain env domain with
  | (resolution, calls) =>
      if resolution.success = false then
        ({ success := false, verified := false, error := resolution.error }, calls)
      else
        match resolution.address with
        | none =>
            ({ success := false, verified := false,
               error := some nullToLowerCaseMessage }, calls)
        | some owner =>
            ({ success := true, verified := lowerCaseEq owner address,
               domain := some domain, ownerAddress := some owner }, calls)

/-- Test address written in all-lowercase hex. -/
def addrLower : String := "0xaaaaaaaaaaaaaaaaaaaaaaaaaaaaaaaaaaaaaaaa"

/-- The same test address written in all-uppercase hex: a case variant of
addrLower that the external validator also accepts. -/
def addrUpper : String := "0xAAAAAAAAAAAAAAAAAAAAAAAAAAAAAAAAAAAAAAAA"

/-- A second, distinct test address. -/
def addrBeta : String := "0xbbbbbbbbbbbbbbbbbbbbbbbbbbbbbbbbbbbbbbbb"

/-- A resolver contract address used by the ENS test environments. -/
def resolverAddr1 : String := "0xcccccccccccccccccccccccccccccccccccccccc"

/-- A receipt with a Transfer event, used by the happy-path environments. -/
def okReceipt : Receipt := ⟨"0xtxhash", [⟨"Transfer", some 7⟩]⟩

/-- Concrete chain environment where every collaborator succeeds. -/
def baseChainEnv : ChainEnv where
  isAddress := hexAddressOk
  hasWallet := true
  walletAddress := addrBeta
  now := 1700000000
  mint := fun _ _ _ _ => Except.ok okReceipt
  fracMint := fun _ _ _ _ => Except.ok okReceipt
  tokenURI := fun _ _ => Except.ok "https://x/meta.json"
  ownerOf := fun _ _ => Except.ok addrLower
  fetchJson := fun _ => Except.ok "meta"
  transferFrom := fun _ _ _ _ => Except.ok okReceipt
  deployTokenization := fun _ _ => Except.ok (addrBeta, "0xdeploytx")
  deployFractional := fun _ => Except.ok (addrBeta, "0xdeploytx")
  listProperty := fun _ _ _ => Except.ok okReceipt
  getPropertyListing := fun _ _ => Except.ok 100
  purchaseProperty := fun _ _ _ _ => Except.ok okReceipt

/-- Chain environment whose mint transaction always reverts. -/
def revertChainEnv : ChainEnv :=
  { baseChainEnv with
    mint := fun _ _ _ _ => Except.error "execution reverted: mint failed" }

/-- Concrete ENS environment: a live resolver, an address record pointing
at addrLower, a content hash that is absent, and exactly one non-empty
text record (property.beds), every other key throwing. -/
def baseENSEnv : ENSEnv where
  registryResolver := fun _ => Except.ok resolverAddr1
  addrRecord := fun _ _ => Except.ok (some addrLower)
  contenthashRecord := fun _ _ => Except.error "no contenthash"
  textRecord := fun _ _ k =>
    if k = "property.beds" then Except.ok "3" else Except.error "missing record"
  decodeContentHash := fun _ => Except.error "bad hash"

/-- ENS environment whose registry returns the zero resolver address. -/
def zeroResolverEnv : ENSEnv :=
  { baseENSEnv with registryResolver := fun _ => Except.ok addressZero }

/-- ENS environment whose address record resolves to null. -/
def nullAddrEnv : ENSEnv :=
  { baseENSEnv with addrRecord := fun _ _ => Except.ok none }

/-- ENS environment whose registry lookup itself throws. -/
def registryDownEnv : ENSEnv :=
  { baseENSEnv with registryResolver := fun _ => Except.error "network down" }

example : hexAddressOk addrLower = true := by decide
example : hexAddressOk addrUpper = true := by decide
example : hexAddressOk "not-an-address" = false := by decide
example :
    (DomainResolver.resolveDomain baseENSEnv "parcel42.eth").1.success = true := by decide
example :
    (DomainResolver.resolveDomain baseENSEnv "parcel42.eth").1.metadata =
      [("property.beds", "3")] := by decide
example :
    (DomainResolver.resolveDomain zeroResolverEnv "parcel42.eth").1.error =
      some "No resolver found for domain parcel42.eth" := by decide

theorem lookupKey_setKey_self {α : Type} (m : List (String × α)) (k : String) (v : α) :
    lookupKey (setKey m k v) k = some v := by
  induction m with
  | nil => simp [setKey, lookupKey]
  | cons p rest ih =>
      obtain ⟨k2, w⟩ := p
      by_cases h : k2 = k
      · simp [setKey, lookupKey, h]
      · simp [setKey, lookupKey, h, ih]

theorem lookupKey_setKey_ne {α : Type} (m : List (String × α)) (k k2 : String) (v : α)
    (h : k2 ≠ k) : lookupKey (setKey m k v) k2 = lookupKey m k2 := by
  induction m with
  | nil =>
      simp only [setKey, lookupKey]
      exact if_neg (fun hh => h hh.symm)
  | cons p rest ih =>
      obtain ⟨k3, w⟩ := p
      simp only [setKey]
      by_cases h3 : k3 = k
      · rw [if_pos h3]
        simp only [lookupKey]
        rw [if_neg (fun hh => h hh.symm), if_neg (fun hh => h (hh.symm.trans h3))]
      · rw [if_neg h3]
        simp only [lookupKey]
        by_cases h32 : k3 = k2
        · rw [if_pos h32, if_pos h32]
        · rw [if_neg h32, if_neg h32, ih]

theorem lookupKey_eq_none {α : Type} (m : List (String × α)) (p : String → Bool)
    (k : String) (hall : ∀ q ∈ m, p q.1 = true) (hk : p k = false) :
    lookupKey m k = none := by
  induction m with
  | nil => rfl
  | cons q rest ih =>
      obtain ⟨k2, w⟩ := q
      have h2 : p k2 = true := hall ⟨k2, w⟩ (List.mem_cons_self _ _)
      have hne : k2 ≠ k := by
        intro hEq
        rw [hEq, hk] at h2
        exact Bool.false_ne_true h2
      simp only [lookupKey, hne, if_false]
      exact ih (fun q hq => hall q (List.mem_cons_of_mem _ hq))

theorem collectTextRecords_mem (env : ENSEnv) (ra nd : String)
    (keys : List String) (k v : String) :
    (k, v) ∈ (collectTextRecords env ra nd keys).1 ↔
      k ∈ keys ∧ env.textRecord ra nd k = Except.ok v ∧ v ≠ "" := by
  induction keys with
  | nil => simp [collectTextRecords]
  | cons k2 rest ih =>
      simp only [collectTextRecords]
      cases hT : env.textRecord ra nd k2 with
      | error e =>
          simp only [ih, List.mem_cons]
          constructor
          · rintro ⟨hm, ho, hv⟩
            exact ⟨Or.inr hm, ho, hv⟩
          · rintro ⟨hk | hm, ho, hv⟩
            · subst hk
              rw [hT] at ho
              exact Except.noConfusion ho
            · exact ⟨hm, ho, hv⟩
      | ok w =>
          dsimp only
          by_cases hw : w = ""
          · rw [if_pos hw]
            simp only [ih, List.mem_cons]
            constructor
            · rintro ⟨hm, ho, hv⟩
              exact ⟨Or.inr hm, ho, hv⟩
            · rintro ⟨hk | hm, ho, hv⟩
              · subst hk
                rw [hT] at ho
                injection ho with hVal
                exact absurd (hVal.symm.trans hw) hv
              · exact ⟨hm, ho, hv⟩
          · rw [if_neg hw]
            simp only [List.mem_cons, Prod.mk.injEq, ih]
            constructor
            · rintro (⟨hk, hv⟩ | ⟨hm, ho, hv⟩)
              · subst hk
                subst hv
                exact ⟨Or.inl rfl, hT, hw⟩
              · exact ⟨Or.inr hm, ho, hv⟩
            · rintro ⟨hk | hm, ho, hv⟩
              · subst hk
                rw [hT] at ho
                injection ho with hVal
                exact Or.inl ⟨rfl, hVal.symm⟩
              · exact Or.inr ⟨hm, ho, hv⟩

theorem DomainResolver.resolveENSDomain_fail_shape (env : ENSEnv) (d : String) :
    (DomainResolver.resolveENSDomain env d).1.success = false →
    (DomainResolver.resolveENSDomain env d).1.address = none ∧
      (DomainResolver.resolveENSDomain env d).1.error ≠ none := by
  unfold DomainResolver.resolveENSDomain
  dsimp only
  cases hR : env.registryResolver (namehash (if endsWithStr d ".eth" then d else d ++ ".eth")) with
  | error e => simp
  | ok ra =>
      dsimp only
      by_cases hz : ra = addressZero
      · rw [if_pos hz]
        simp
      · rw [if_neg hz]
        cases hA : env.addrRecord ra (namehash (if endsWithStr d ".eth" then d else d ++ ".eth")) with
        | error e => simp
        | ok addr => simp

theorem DomainResolver.resolveDomain_fail_shape (env : ENSEnv) (d : String) :
    (DomainResolver.resolveDomain env d).1.success = false →
    (DomainResolver.resolveDomain env d).1.address = none ∧
      (DomainResolver.resolveDomain env d).1.error ≠ none := by
  unfold DomainResolver.resolveDomain
  split
  · exact DomainResolver.resolveENSDomain_fail_shape env d
  · split
    · intro _
      simp [DomainResolver.resolveUnstoppableDomain]
    · intro _
      simp

theorem TokenManager.mint_error_shape (env : ChainEnv)
    (cs : List (String × ContractHandle)) (a u r p : String) :
    (TokenManager.mintPropertyToken env cs a u r p).1.success = false →
    (TokenManager.mintPropertyToken env cs a u r p).1.error ≠ none := by
  unfold TokenManager.mintPropertyToken
  rcases hG : TokenManager.getOrLoad env cs a "ERC721" with ⟨eh, cs2⟩
  cases eh with
  | error e => simp
  | ok h =>
      dsimp only
      cases hM : env.mint a r u ⟨p, u, env.now⟩ with
      | error e => simp
      | ok receipt => simp

theorem TokenManager.fractional_error_shape (env : ChainEnv)
    (cs : List (String × ContractHandle)) (a tid : String) (n : Nat) :
    (TokenManager.createFractionalTokens env cs a tid n).1.success = false →
    (TokenManager.createFractionalTokens env cs a tid n).1.error ≠ none := by
  unfold TokenManager.createFractionalTokens
  repeat' split
  all_goals simp

theorem TokenManager.metadata_error_shape (env : ChainEnv)
    (cs : List (String × ContractHandle)) (a tid : String) :
    (TokenManager.getTokenMetadata env cs a tid).1.success = some false →
    (TokenManager.getTokenMetadata env cs a tid).1.error ≠ none := by
  unfold TokenManager.getTokenMetadata
  repeat' split
  all_goals simp

theorem TokenManager.transfer_error_shape (env : ChainEnv)
    (cs : List (String × ContractHandle)) (a tid f t : String) :
    (TokenManager.transferToken env cs a tid f t).1.success = false →
    (TokenManager.transferToken env cs a tid f t).1.error ≠ none := by
  unfold TokenManager.transferToken
  repeat' split
  all_goals simp

theorem SmartContractService.deployTokenization_error_shape (env : ChainEnv)
    (reg : List (String × DeployedRecord)) (nm sym : String) :
    (SmartContractService.deployTokenizationContract env reg nm sym).1.success = false →
    (SmartContractService.deployTokenizationContract env reg nm sym).1.error ≠ none := by
  unfold SmartContractService.deployTokenizationContract
  repeat' split
  all_goals simp

theorem SmartContractService.deployFractional_error_shape (env : ChainEnv)
    (reg : List (String × DeployedRecord)) (pta : String) :
    (SmartContractService.deployFractionalContract env reg pta).1.success = false →
    (SmartContractService.deployFractionalContract env reg pta).1.error ≠ none := by
  unfold SmartContractService.deployFractionalContract
  repeat' split
  all_goals simp

theorem SmartContractService.list_error_shape (env : ChainEnv)
    (reg : List (String × DeployedRecord)) (a tid : String) (price : Nat) :
    (SmartContractService.listPropertyForSale env reg a tid price).1.success = false →
    (SmartContractService.listPropertyForSale env reg a tid price).1.error ≠ none := by
  unfold SmartContractService.listPropertyForSale
  repeat' split
  all_goals simp

theorem SmartContractService.buy_error_shape (env : ChainEnv)
    (reg : List (String × DeployedRecord)) (a tid : String) (shares : Nat) :
    (SmartContractService.buyProperty env reg a tid shares).1.success = false →
    (SmartContractService.buyProperty env reg a tid shares).1.error ≠ none := by
  unfold SmartContractService.buyProperty
  rcases hG : SmartContractService.getOrLoad env reg a with ⟨eh, reg2⟩
  cases eh with
  | error e => simp
  | ok h =>
      dsimp only
      cases hL : env.getPropertyListing a tid with
      | error e => simp
      | ok listedPrice =>
          dsimp only
          cases hP : env.purchaseProperty a tid shares (listedPrice * shares) with
          | error e => simp
          | ok receipt => simp

theorem DomainResolver.verify_error_shape (env : ENSEnv) (d a : String) :
    (DomainResolver.verifyDomainOwnership env d a).1.success = false →
    (DomainResolver.verifyDomainOwnership env d a).1.error ≠ none := by
  have hShape := DomainResolver.resolveDomain_fail_shape env d
  unfold DomainResolver.verifyDomainOwnership
  rcases hR : DomainResolver.resolveDomain env d with ⟨res, calls⟩
  rw [hR] at hShape
  dsimp only
  by_cases hS : res.success = false
  · rw [if_pos hS]
    intro _
    exact (hShape hS).2
  · rw [if_neg hS]
    cases res.address with
    | none => simp
    | some owner => simp

/-- C1 counterexample: contract load is a public operation of the core and
invalid address is an expected failure mode, yet TokenManager.loadContract
at a malformed address returns a thrown exception (modelled as
Except.error) instead of a structured success-false object, so the claim
that no operation lets an exception cross the module boundary is false at
this concrete input. -/
theorem C1_counterexample :
    (TokenManager.loadContract baseChainEnv [] "not-an-address" "ERC721").1 =
      Except.error "Invalid contract address" := rfl

/-- C1 (amended): every asynchronous public operation (mint, fractionalize,
metadata read, transfer, the two deployments, list, purchase, domain
resolution and ownership verification) returns a plain structured result
and, whenever it reports failure, carries an error string; the exceptions
to the original claim are the synchronous loadContract functions, which
throw on invalid address or load failure, and getTokenMetadata, whose
happy-path object omits the success flag. -/
theorem C1_structured_failure_results (env : ChainEnv) (rEnv : ENSEnv)
    (cs : List (String × ContractHandle)) (reg : List (String × DeployedRecord))
    (a u r p tid f t nm sym d claimed : String) (n price shares : Nat) :
    ((TokenManager.mintPropertyToken env cs a u r p).1.success = false →
      (TokenManager.mintPropertyToken env cs a u r p).1.error ≠ none) ∧
    ((TokenManager.createFractionalTokens env cs a tid n).1.success = false →
      (TokenManager.createFractionalTokens env cs a tid n).1.error ≠ none) ∧
    ((TokenManager.getTokenMetadata env cs a tid).1.success = some false →
      (TokenManager.getTokenMetadata env cs a tid).1.error ≠ none) ∧
    ((TokenManager.transferToken env cs a tid f t).1.success = false →
      (TokenManager.transferToken env cs a tid f t).1.error ≠ none) ∧
    ((SmartContractService.deployTokenizationContract env reg nm sym).1.success = false →
      (SmartContractService.deployTokenizationContract env reg nm sym).1.error ≠ none) ∧
    ((SmartContractService.deployFractionalContract env reg p).1.success = false →
      (SmartContractService.deployFractionalContract env reg p).1.error ≠ none) ∧
    ((SmartContractService.listPropertyForSale env reg a tid price).1.success = false →
      (SmartContractService.listPropertyForSale env reg a tid price).1.error ≠ none) ∧
    ((SmartContractService.buyProperty env reg a tid shares).1.success = false →
      (SmartContractService.buyProperty env reg a tid shares).1.error ≠ none) ∧
    ((DomainResolver.resolveDomain rEnv d).1.success = false →
      (DomainResolver.resolveDomain rEnv d).1.error ≠ none) ∧
    ((DomainResolver.verifyDomainOwnership rEnv d claimed).1.success = false →
      (DomainResolver.verifyDomainOwnership rEnv d claimed).1.error ≠ none) :=
  ⟨TokenManager.mint_error_shape env cs a u r p,
   TokenManager.fractional_error_shape env cs a tid n,
   TokenManager.metadata_error_shape env cs a tid,
   TokenManager.transfer_error_shape env cs a tid f t,
   SmartContractService.deployTokenization_error_shape env reg nm sym,
   SmartContractService.deployFractional_error_shape env reg p,
   SmartContractService.list_error_shape env reg a tid price,
   SmartContractService.buy_error_shape env reg a tid shares,
   fun h => (DomainResolver.resolveDomain_fail_shape rEnv d h).2,
   DomainResolver.verify_error_shape rEnv d claimed⟩

/-- C1 witness: the amended theorem applied to a concrete reverting mint,
showing the failure result carries an error string. -/
theorem C1_structured_failure_results_witness :
    (TokenManager.mintPropertyToken revertChainEnv [] addrLower
      "https://x/meta.json" addrBeta "beds3").1.success = false ∧
    (TokenManager.mintPropertyToken revertChainEnv [] addrLower
      "https://x/meta.json" addrBeta "beds3").1.error ≠ none :=
  ⟨by decide,
   (C1_structured_failure_results revertChainEnv baseENSEnv [] []
      addrLower "https://x/meta.json" addrBeta "beds3" "1" "f" "t" "nm" "sym"
      "d.eth" addrLower 1 1 1).1 (by decide)⟩

/-- C2 counterexample: the contract-handle cache keys by the exact address
string, so after loading a handle under the all-lowercase spelling, a
lookup under the all-uppercase spelling of the same address misses, while
the lowercase key hits: case variants are distinct keys, falsifying the
case-insensitive-key claim. -/
theorem C2_counterexample :
    lookupKey (TokenManager.loadContract baseChainEnv [] addrLower "ERC721").2
        addrUpper = none ∧
    lookupKey (TokenManager.loadContract baseChainEnv [] addrLower "ERC721").2
        addrLower = some ⟨addrLower, "ERC721"⟩ :=
  ⟨by decide, by decide⟩

/-- C2 (amended): both address-keyed structures (the TokenManager handle
cache and the SmartContractService registry) key by the exact address
string as passed: a successful load stores under precisely that string,
leaves every other key (including case variants) untouched, and the stored
record carries the address verbatim, with no checksum canonicalization. -/
theorem C2_exact_string_keys (env : ChainEnv)
    (cs : List (String × ContractHandle)) (reg : List (String × DeployedRecord))
    (addr ty abiTag other : String) (h : env.isAddress addr = true)
    (hw : env.hasWallet = true) (hne : other ≠ addr) :
    lookupKey (TokenManager.loadContract env cs addr ty).2 addr =
      some ⟨addr, if ty = "ERC1155" then "ERC1155" else "ERC721"⟩ ∧
    lookupKey (TokenManager.loadContract env cs addr ty).2 other = lookupKey cs other ∧
    lookupKey (SmartContractService.loadContract env reg addr abiTag).2 addr =
      some ⟨addr, "custom", none⟩ ∧
    lookupKey (SmartContractService.loadContract env reg addr abiTag).2 other =
      lookupKey reg other := by
  unfold TokenManager.loadContract SmartContractService.loadContract
  rw [h, hw]
  simp only [Bool.true_eq_false, if_false, if_true]
  exact ⟨lookupKey_setKey_self cs addr _,
    lookupKey_setKey_ne cs addr other _ hne,
    lookupKey_setKey_self reg addr _,
    lookupKey_setKey_ne reg addr other _ hne⟩

/-- C2 witness: the amended theorem at the concrete lowercase address with
its uppercase spelling as the other key. -/
theorem C2_exact_string_keys_witness :
    lookupKey (TokenManager.loadContract baseChainEnv [] addrLower "ERC721").2
        addrLower = some ⟨addrLower, "ERC721"⟩ ∧
    lookupKey (SmartContractService.loadContract baseChainEnv [] addrLower "abi").2
        addrUpper = lookupKey [] addrUpper :=
  ⟨(C2_exact_string_keys baseChainEnv [] [] addrLower "ERC721" "abi" addrUpper
      (by decide) rfl (by decide)).1,
   (C2_exact_string_keys baseChainEnv [] [] addrLower "ERC721" "abi" addrUpper
      (by decide) rfl (by decide)).2.2.2⟩

/-- C3 counterexample: minting at a well-formed address that is not yet in
the handle cache, against a contract whose mint reverts, returns the
structured failure but leaves the cache mutated: the handle loaded before
the mint attempt is still stored, so the state after the failed call is
not the state before it. -/
theorem C3_counterexample :
    (TokenManager.mintPropertyToken revertChainEnv [] addrBeta
      "https://y/meta.json" addrLower "beds4").1.success = false ∧
    (TokenManager.mintPropertyToken revertChainEnv [] addrBeta
      "https://y/meta.json" addrLower "beds4").2.1 =
      [(addrBeta, ⟨addrBeta, "ERC721"⟩)] :=
  ⟨by decide, by decide⟩

/-- C3 (amended): mint on a reverting contract returns success-false with
the revert reason as the error, issuing exactly the one mint transaction;
when the address was already cached the handle cache is returned unchanged,
while on a cache miss (with a valid address and configured wallet) the
cache gains exactly the handle loaded before the mint attempt. The
deployed-contract registry lives in the separate marketplace service,
which mint never touches. -/
theorem C3_revert_mint (env : ChainEnv) (cs : List (String × ContractHandle))
    (addr u r p msg : String) (hdl : ContractHandle)
    (hrevert : env.mint addr r u ⟨p, u, env.now⟩ = Except.error msg) :
    (lookupKey cs addr = some hdl →
      TokenManager.mintPropertyToken env cs addr u r p =
        ({ success := false, error := some msg }, cs,
          [NetCall.mintTx addr r u ⟨p, u, env.now⟩])) ∧
    (lookupKey cs addr = none → env.isAddress addr = true → env.hasWallet = true →
      TokenManager.mintPropertyToken env cs addr u r p =
        ({ success := false, error := some msg },
          setKey cs addr ⟨addr, "ERC721"⟩,
          [NetCall.mintTx addr r u ⟨p, u, env.now⟩])) := by
  constructor
  · intro hHit
    unfold TokenManager.mintPropertyToken TokenManager.getOrLoad
    rw [hHit]
    dsimp only
    rw [hrevert]
  · intro hMiss hOk hW
    unfold TokenManager.mintPropertyToken TokenManager.getOrLoad TokenManager.loadContract
    rw [hMiss, hOk, hW]
    simp only [if_pos rfl, Bool.true_eq_false, if_false, if_neg (by decide : ¬("ERC721" = "ERC1155"))]
    simp [hrevert]

/-- C3 witness: the amended theorem at a concrete cached address whose
mint reverts, showing the unchanged cache and the structured failure. -/
theorem C3_revert_mint_witness :
    TokenManager.mintPropertyToken revertChainEnv
        [(addrLower, ⟨addrLower, "ERC721"⟩)] addrLower "u" "r" "pd" =
      ({ success := false, error := some "execution reverted: mint failed" },
        [(addrLower, (⟨addrLower, "ERC721"⟩ : ContractHandle))],
        [NetCall.mintTx addrLower "r" "u" ⟨"pd", "u", 1700000000⟩]) :=
  (C3_revert_mint revertChainEnv [(addrLower, ⟨addrLower, "ERC721"⟩)]
      addrLower "u" "r" "pd" "execution reverted: mint failed"
      ⟨addrLower, "ERC721"⟩ rfl).1 (by decide)

/-- C4: verifyDomainOwnership reports verified exactly when the resolution
produced an address equal to the claimed one under the case-insensitive
comparison, and whenever resolution fails the verification is a failure
carrying the very same error, never a successful not-owned report. -/
theorem C4_verifyOwnership (env : ENSEnv) (domain claimed : String) :
    ((DomainResolver.verifyDomainOwnership env domain claimed).1.verified = true ↔
      (∃ a, (DomainResolver.resolveDomain env domain).1.address = some a ∧
        lowerCaseEq a claimed = true)) ∧
    ((DomainResolver.resolveDomain env domain).1.success = false →
      (DomainResolver.verifyDomainOwnership env domain claimed).1.success = false ∧
      (DomainResolver.verifyDomainOwnership env domain claimed).1.verified = false ∧
      (DomainResolver.verifyDomainOwnership env domain claimed).1.error =
        (DomainResolver.resolveDomain env domain).1.error) := by
  have hShape := DomainResolver.resolveDomain_fail_shape env domain
  unfold DomainResolver.verifyDomainOwnership
  rcases hR : DomainResolver.resolveDomain env domain with ⟨res, calls⟩
  rw [hR] at hShape
  dsimp only
  by_cases hS : res.success = false
  · rw [if_pos hS]
    constructor
    · constructor
      · intro hv
        exact absurd hv (by simp)
      · rintro ⟨a, ha, _⟩
        rw [(hShape hS).1] at ha
        exact Option.noConfusion ha
    · intro _
      exact ⟨rfl, rfl, rfl⟩
  · rw [if_neg hS]
    cases hA : res.address with
    | none =>
        constructor
        · constructor
          · intro hv
            exact absurd hv (by simp)
          · rintro ⟨a, ha, _⟩
            exact Option.noConfusion ha
        · intro hcontra
          exact absurd hcontra hS
    | some owner =>
        constructor
        · constructor
          · intro hv
            exact ⟨owner, rfl, hv⟩
          · rintro ⟨a, ha, hl⟩
            injection ha with ha2
            rw [ha2]
            exact hl
        · intro hcontra
          exact absurd hcontra hS

/-- C4 witness: the theorem applied concretely: an uppercase claimed
address verifies against the lowercase resolved one, and when the registry
lookup throws, the verification failure carries the same error. -/
theorem C4_verifyOwnership_witness :
    (DomainResolver.verifyDomainOwnership baseENSEnv "a.eth" addrUpper).1.verified = true ∧
    ((DomainResolver.verifyDomainOwnership registryDownEnv "b.eth" addrLower).1.success = false ∧
      (DomainResolver.verifyDomainOwnership registryDownEnv "b.eth" addrLower).1.error =
        (DomainResolver.resolveDomain registryDownEnv "b.eth").1.error) :=
  ⟨(C4_verifyOwnership baseENSEnv "a.eth" addrUpper).1.mpr
      ⟨addrLower, by decide, by decide⟩,
   ((C4_verifyOwnership registryDownEnv "b.eth" addrLower).2 (by decide)).1,
   ((C4_verifyOwnership registryDownEnv "b.eth" addrLower).2 (by decide)).2.2⟩

/-- C5: resolving an eth-suffixed domain whose registry lookup yields the
zero resolver address fails with the no-resolver error, and the call trace
is exactly the single registry lookup: no address, content-hash or
text-record call is ever issued against any resolver. -/
theorem C5_zero_resolver (env : ENSEnv) (domain : String)
    (hEth : endsWithStr domain ".eth" = true)
    (hZero : env.registryResolver (namehash domain) = Except.ok addressZero) :
    (DomainResolver.resolveDomain env domain).1.success = false ∧
    (DomainResolver.resolveDomain env domain).1.error =
      some ("No resolver found for domain " ++ domain) ∧
    (DomainResolver.resolveDomain env domain).2 =
      [ResolverCall.registry (namehash domain)] := by
  unfold DomainResolver.resolveDomain DomainResolver.resolveENSDomain
  rw [if_pos hEth]
  dsimp only
  rw [if_pos hEth, hZero]
  dsimp only
  rw [if_pos rfl]
  exact ⟨rfl, rfl, rfl⟩

/-- C5 witness: the theorem at parcel42.eth under the zero-resolver
environment. -/
theorem C5_zero_resolver_witness :
    (DomainResolver.resolveDomain zeroResolverEnv "parcel42.eth").1.success = false ∧
    (DomainResolver.resolveDomain zeroResolverEnv "parcel42.eth").1.error =
      some "No resolver found for domain parcel42.eth" ∧
    (DomainResolver.resolveDomain zeroResolverEnv "parcel42.eth").2 =
      [ResolverCall.registry (namehash "parcel42.eth")] :=
  C5_zero_resolver zeroResolverEnv "parcel42.eth" (by decide) rfl

/-- C6: when the registry yields a live resolver and the address record
read succeeds, an erroring text-record key is simply skipped: the
resolution still succeeds, the failed key appears in no metadata entry,
and every key whose query returned a non-empty value is present. -/
theorem C6_text_record_skip (env : ENSEnv) (domain ra k e : String)
    (addrVal : Option String)
    (hEth : endsWithStr domain ".eth" = true)
    (hReg : env.registryResolver (namehash domain) = Except.ok ra)
    (hZero : ra ≠ addressZero)
    (hAddr : env.addrRecord ra (namehash domain) = Except.ok addrVal)
    (hk : k ∈ textRecordKeys)
    (hKey : env.textRecord ra (namehash domain) k = Except.error e) :
    (DomainResolver.resolveDomain env domain).1.success = true ∧
    (∀ v, (k, v) ∉ (DomainResolver.resolveDomain env domain).1.metadata) ∧
    (∀ k2 v, k2 ∈ textRecordKeys →
      env.textRecord ra (namehash domain) k2 = Except.ok v → v ≠ "" →
      (k2, v) ∈ (DomainResolver.resolveDomain env domain).1.metadata) := by
  have hkeep := hk
  clear hkeep
  unfold DomainResolver.resolveDomain DomainResolver.resolveENSDomain
  rw [if_pos hEth]
  dsimp only
  rw [if_pos hEth, hReg]
  dsimp only
  rw [if_neg hZero, hAddr]
  dsimp only
  refine ⟨rfl, ?_, ?_⟩
  · intro v hv
    rw [collectTextRecords_mem] at hv
    rw [hKey] at hv
    exact Except.noConfusion hv.2.1
  · intro k2 v hk2 hOk hv
    exact (collectTextRecords_mem env ra (namehash domain) textRecordKeys k2 v).mpr
      ⟨hk2, hOk, hv⟩

/-- C6 witness: the theorem at parcel42.eth in the base environment, where
only property.beds answers: the resolution succeeds, the erroring
description key is absent, and property.beds maps to 3. -/
theorem C6_text_record_skip_witness :
    (DomainResolver.resolveDomain baseENSEnv "parcel42.eth").1.success = true ∧
    ("description", "x") ∉ (DomainResolver.resolveDomain baseENSEnv "parcel42.eth").1.metadata ∧
    ("property.beds", "3") ∈ (DomainResolver.resolveDomain baseENSEnv "parcel42.eth").1.metadata :=
  ⟨(C6_text_record_skip baseENSEnv "parcel42.eth" resolverAddr1 "description"
      "missing record" (some addrLower) (by decide) rfl (by decide) rfl
      (by decide) rfl).1,
   (C6_text_record_skip baseENSEnv "parcel42.eth" resolverAddr1 "description"
      "missing record" (some addrLower) (by decide) rfl (by decide) rfl
      (by decide) rfl).2.1 "x",
   (C6_text_record_skip baseENSEnv "parcel42.eth" resolverAddr1 "description"
      "missing record" (some addrLower) (by decide) rfl (by decide) rfl
      (by decide) rfl).2.2 "property.beds" "3" (by decide) rfl (by decide)⟩

/-- C7 counterexample: for a malformed address, the contract-load
operation (listed by the claim among the operations that must fail with an
InvalidInput-kind STRUCTURED failure) instead fails by throwing: the
SmartContractService.loadContract result is a raised error, not a
success-false result object. -/
theorem C7_counterexample :
    (SmartContractService.loadContract baseChainEnv [] "bogus" "PropertyMarketplace").1 =
      Except.error "Invalid contract address" := rfl

/-- C7 (amended): for every address rejected by the validator, each
asynchronous operation taking an address returns an InvalidInput
structured failure, leaves its state unchanged and issues zero network
calls; the two synchronous loadContract functions also validate locally
and issue zero network calls, but fail by throwing the invalid-address
error rather than returning a structured failure. The cache and registry
are assumed to hold only validated keys, as every insertion site
validates. -/
theorem C7_invalid_address_local (env : ChainEnv)
    (cs : List (String × ContractHandle)) (reg : List (String × DeployedRecord))
    (addr u r p tid f t abiTag : String) (n price shares : Nat)
    (hBad : env.isAddress addr = false)
    (hcs : ∀ q ∈ cs, env.isAddress q.1 = true)
    (hreg : ∀ q ∈ reg, env.isAddress q.1 = true) :
    TokenManager.loadContract env cs addr "ERC721" =
      (Except.error "Invalid contract address", cs) ∧
    TokenManager.mintPropertyToken env cs addr u r p =
      ({ success := false, error := some "Invalid contract address" }, cs, []) ∧
    TokenManager.createFractionalTokens env cs addr tid n =
      ({ success := false, error := some "Invalid contract address" }, cs, []) ∧
    TokenManager.getTokenMetadata env cs addr tid =
      ({ success := some false, error := some "Invalid contract address" }, cs, []) ∧
    TokenManager.transferToken env cs addr tid f t =
      ({ success := false, error := some "Invalid contract address" }, cs, []) ∧
    SmartContractService.loadContract env reg addr abiTag =
      (Except.error "Invalid contract address", reg) ∧
    SmartContractService.deployFractionalContract env reg addr =
      ({ success := false, error := some "Invalid property token address" }, reg, []) ∧
    SmartContractService.listPropertyForSale env reg addr tid price =
      ({ success := false, error := some "Invalid contract address" }, reg, []) ∧
    SmartContractService.buyProperty env reg addr tid shares =
      ({ success := false, error := some "Invalid contract address" }, reg, []) := by
  have hLc : lookupKey cs addr = none := lookupKey_eq_none cs env.isAddress addr hcs hBad
  have hLr : lookupKey reg addr = none := lookupKey_eq_none reg env.isAddress addr hreg hBad
  refine ⟨?_, ?_, ?_, ?_, ?_, ?_, ?_, ?_, ?_⟩ <;>
    simp [TokenManager.loadContract, TokenManager.getOrLoad,
      TokenManager.mintPropertyToken, TokenManager.createFractionalTokens,
      TokenManager.getTokenMetadata, TokenManager.transferToken,
      SmartContractService.loadContract, SmartContractService.getOrLoad,
      SmartContractService.deployFractionalContract,
      SmartContractService.listPropertyForSale, SmartContractService.buyProperty,
      hBad, hLc, hLr]

/-- C7 witness: the amended theorem at a concrete malformed address over
empty cache and registry: the mint path returns the structured
invalid-address failure with an empty call trace. -/
theorem C7_invalid_address_local_witness :
    TokenManager.mintPropertyToken baseChainEnv [] "zzz" "u" "r" "pd" =
      ({ success := false, error := some "Invalid contract address" }, [], []) ∧
    SmartContractService.buyProperty baseChainEnv [] "zzz" "42" 2 =
      ({ success := false, error := some "Invalid contract address" }, [], []) :=
  ⟨(C7_invalid_address_local baseChainEnv [] [] "zzz" "u" "r" "pd" "42" "f" "t"
      "abi" 1 1 2 (by decide) (by simp) (by simp)).2.1,
   (C7_invalid_address_local baseChainEnv [] [] "zzz" "u" "r" "pd" "42" "f" "t"
      "abi" 1 1 2 (by decide) (by simp) (by simp)).2.2.2.2.2.2.2.2⟩

/-- C8: resolveDomain dispatches purely on the domain suffix: an
eth-suffixed domain takes the ENS path, a domain with one of the fixed
alternate suffixes always gets the stubbed not-implemented failure, and
any other domain gets the unsupported-domain failure. -/
theorem C8_suffix_dispatch (env : ENSEnv) (domain : String) :
    (endsWithStr domain ".eth" = true →
      DomainResolver.resolveDomain env domain =
        DomainResolver.resolveENSDomain env domain) ∧
    (endsWithStr domain ".eth" = false →
      altTlds.any (fun tld => endsWithStr domain ("." ++ tld)) = true →
      (DomainResolver.resolveDomain env domain).1.success = false ∧
      (DomainResolver.resolveDomain env domain).1.error =
        some "Unstoppable Domains resolution requires additional implementation") ∧
    (endsWithStr domain ".eth" = false →
      altTlds.any (fun tld => endsWithStr domain ("." ++ tld)) = false →
      (DomainResolver.resolveDomain env domain).1.success = false ∧
      (DomainResolver.resolveDomain env domain).1.error =
        some "Unsupported domain type. Supported: .eth, .crypto, .nft, etc.") := by
  unfold DomainResolver.resolveDomain
  refine ⟨?_, ?_, ?_⟩
  · intro h1
    rw [if_pos h1]
  · intro h1 h2
    rw [if_neg (by simp [h1]), if_pos h2]
    exact ⟨rfl, rfl⟩
  · intro h1 h2
    rw [if_neg (by simp [h1]), if_neg (by simp [h2])]
    exact ⟨rfl, rfl⟩

/-- C8 witness: the three dispatch branches at concrete domains. -/
theorem C8_suffix_dispatch_witness :
    DomainResolver.resolveDomain baseENSEnv "a.eth" =
      DomainResolver.resolveENSDomain baseENSEnv "a.eth" ∧
    (DomainResolver.resolveDomain baseENSEnv "a.crypto").1.error =
      some "Unstoppable Domains resolution requires additional implementation" ∧
    (DomainResolver.resolveDomain baseENSEnv "a.org").1.error =
      some "Unsupported domain type. Supported: .eth, .crypto, .nft, etc." :=
  ⟨(C8_suffix_dispatch baseENSEnv "a.eth").1 (by decide),
   ((C8_suffix_dispatch baseENSEnv "a.crypto").2.1 (by decide) (by decide)).2,
   ((C8_suffix_dispatch baseENSEnv "a.org").2.2 (by decide) (by decide)).2⟩

/-- C9: for every marketplace address, buyProperty first reads the current
listing and then submits the purchase carrying payment value equal to the
listed price times the share count, reporting that computed price in the
result; the trace records the listing read strictly before the purchase
submission. Whether the address was already a registry entry (first
conjunct) or the contract had to be loaded first (second conjunct: a valid
address with a configured wallet, where the registry gains the custom
record the load stores), the read-then-submit and its value are the same. -/
theorem C9_purchase_price (env : ChainEnv) (reg : List (String × DeployedRecord))
    (marketplaceAddress tokenId : String) (shares listedPrice : Nat)
    (receipt : Receipt)
    (hListing : env.getPropertyListing marketplaceAddress tokenId =
      Except.ok listedPrice)
    (hBuy : env.purchaseProperty marketplaceAddress tokenId shares
      (listedPrice * shares) = Except.ok receipt) :
    (∀ rec : DeployedRecord, lookupKey reg marketplaceAddress = some rec →
      SmartContractService.buyProperty env reg marketplaceAddress tokenId shares =
        ({ success := true, tokenId := some tokenId, shares := some shares,
           price := some (toString (listedPrice * shares)),
           transactionHash := some receipt.transactionHash }, reg,
          [NetCall.listingRead marketplaceAddress tokenId,
           NetCall.purchaseTx marketplaceAddress tokenId shares
             (listedPrice * shares)])) ∧
    (lookupKey reg marketplaceAddress = none →
      env.isAddress marketplaceAddress = true → env.hasWallet = true →
      SmartContractService.buyProperty env reg marketplaceAddress tokenId shares =
        ({ success := true, tokenId := some tokenId, shares := some shares,
           price := some (toString (listedPrice * shares)),
           transactionHash := some receipt.transactionHash },
          setKey reg marketplaceAddress ⟨marketplaceAddress, "custom", none⟩,
          [NetCall.listingRead marketplaceAddress tokenId,
           NetCall.purchaseTx marketplaceAddress tokenId shares
             (listedPrice * shares)])) := by
  constructor
  · intro rec hCached
    unfold SmartContractService.buyProperty SmartContractService.getOrLoad
    rw [hCached]
    dsimp only
    rw [hListing]
    dsimp only
    rw [hBuy]
  · intro hMiss hOk hW
    unfold SmartContractService.buyProperty SmartContractService.getOrLoad
      SmartContractService.loadContract
    rw [hMiss, hOk, hW]
    simp only [Bool.true_eq_false, if_false, if_true]
    rw [hListing]
    dsimp only
    rw [hBuy]

/-- A marketplace registry record used by the purchase witness. -/
def marketRecord : DeployedRecord := ⟨addrBeta, "PropertyTokenization", none⟩

/-- C9 witness: share count 2 at listed price 100 submits and reports
value 200, both for a marketplace address already in the registry and for
a first purchase through a fresh registry, where the loaded contract is
recorded. -/
theorem C9_purchase_price_witness :
    SmartContractService.buyProperty baseChainEnv [(addrBeta, marketRecord)]
        addrBeta "42" 2 =
      ({ success := true, tokenId := some "42", shares := some 2,
         price := some "200", transactionHash := some "0xtxhash" },
        [(addrBeta, marketRecord)],
        [NetCall.listingRead addrBeta "42",
         NetCall.purchaseTx addrBeta "42" 2 200]) ∧
    SmartContractService.buyProperty baseChainEnv [] addrBeta "42" 2 =
      ({ success := true, tokenId := some "42", shares := some 2,
         price := some "200", transactionHash := some "0xtxhash" },
        [(addrBeta, (⟨addrBeta, "custom", none⟩ : DeployedRecord))],
        [NetCall.listingRead addrBeta "42",
         NetCall.purchaseTx addrBeta "42" 2 200]) :=
  ⟨(C9_purchase_price baseChainEnv [(addrBeta, marketRecord)] addrBeta "42" 2 100
      okReceipt rfl rfl).1 marketRecord (by decide),
   (C9_purchase_price baseChainEnv [] addrBeta "42" 2 100
      okReceipt rfl rfl).2 rfl (by decide) rfl⟩

/-- C10: when resolution succeeds but with a null resolved address,
verifyDomainOwnership does not report a successful not-owned result: the
attempted lower-casing of null raises, and the catch converts it into a
structured failure with verified false and an error present. -/
theorem C10_null_resolved_address (env : ENSEnv) (domain claimed : String)
    (hSucc : (DomainResolver.resolveDomain env domain).1.success = true)
    (hNone : (DomainResolver.resolveDomain env domain).1.address = none) :
    (DomainResolver.verifyDomainOwnership env domain claimed).1 =
      { success := false, verified := false,
        error := some nullToLowerCaseMessage } := by
  unfold DomainResolver.verifyDomainOwnership
  rcases hR : DomainResolver.resolveDomain env domain with ⟨res, calls⟩
  rw [hR] at hSucc hNone
  dsimp only at hSucc hNone ⊢
  rw [if_neg (by simp [hSucc]), hNone]

/-- C10 witness: the theorem in the environment whose address record
resolves to null. -/
theorem C10_null_resolved_address_witness :
    (DomainResolver.verifyDomainOwnership nullAddrEnv "a.eth" addrLower).1 =
      { success := false, verified := false,
        error := some nullToLowerCaseMessage } :=
  C10_null_resolved_address nullAddrEnv "a.eth" addrLower (by decide) (by decide)
